import Mathlib

/-!
Shallow embedding of the resolution engine of zonefile-rs (src/validation.rs,
src/transform.rs, src/parser.rs, src/serial.rs) and proofs about the spec's
claims.  Rust strings are Lean Strings; string primitives (trim, split,
ends_with, replace) are modelled on the character list so that they mirror the
Rust std semantics used by the code (all zone data is ASCII; the Unicode
classes behind char::is_whitespace / char::is_alphanumeric are restricted to
their ASCII parts, which is the only range the validators' character sets
accept anyway).  Fallible Rust functions returning anyhow::Result are embedded
as Except ZErr; each bail! site gets its own ZErr constructor carrying the
data the message interpolates.  HashMaps become association lists; the map
iteration order of the source is nondeterministic, so every theorem below
quantifies over an arbitrary entry order.  Machine integers (u8/u16/u32/u128)
are Nat; the one place where wrap-around matters (the u32 increment inside
calc_serial) takes an explicit % 2^32.
-/

namespace Zonefile

deriving instance DecidableEq for Except

/-- ASCII part of Rust char::is_whitespace (the whitespace that can occur in
zone-file data). -/
def isWs (c : Char) : Bool :=
  c == ' ' || c == '\t' || c == '\n' || c == '\r' || c == '\x0b' || c == '\x0c'

/-- ASCII part of Rust char::is_alphanumeric. -/
def isAlnum (c : Char) : Bool := c.isAlpha || c.isDigit

/-- Rust str::trim on a character list: drop leading and trailing whitespace. -/
def trimChars (l : List Char) : List Char :=
  ((l.dropWhile isWs).reverse.dropWhile isWs).reverse

/-- Rust str::trim. -/
def rustTrim (s : String) : String := ⟨trimChars s.data⟩

/-- Rust str::len (byte length; equal to the character count on ASCII data). -/
def rustLen (s : String) : Nat := s.utf8ByteSize

/-- Rust str::ends_with with a string pattern. -/
def strEndsWith (s t : String) : Bool := t.data.isSuffixOf s.data

/-- Rust str::starts_with with a string pattern. -/
def strStartsWith (s t : String) : Bool := t.data.isPrefixOf s.data

/-- Rust str::contains with a char pattern. -/
def strContainsChar (s : String) (c : Char) : Bool := s.data.contains c

/-- Rust str::split_once: split at the first occurrence of the character. -/
def splitOnceAux (c : Char) : List Char → Option (List Char × List Char)
  | [] => none
  | x :: xs =>
    if x = c then some ([], xs)
    else (splitOnceAux c xs).map (fun p => (x :: p.1, p.2))

/-- Rust str::split_once on Strings. -/
def splitOnceChar (c : Char) (s : String) : Option (String × String) :=
  (splitOnceAux c s.data).map (fun p => (⟨p.1⟩, ⟨p.2⟩))

/-- Rust str::split with a char pattern (keeps empty segments, like Rust). -/
def splitChar (c : Char) : List Char → List (List Char)
  | [] => [[]]
  | x :: xs =>
    match splitChar c xs with
    | [] => [[]]
    | y :: ys => if x = c then [] :: y :: ys else (x :: y) :: ys

/-- Rust str::split on Strings. -/
def strSplit (c : Char) (s : String) : List String :=
  (splitChar c s.data).map (fun l => ⟨l⟩)

/-- Rust str::trim_end_matches(".") — strips every trailing dot. -/
def dropTrailingDots (s : String) : String :=
  ⟨(s.data.reverse.dropWhile (· == '.')).reverse⟩

/-- Rust str::replace('.', "\\.") on the character list. -/
def escapeDots : List Char → List Char
  | [] => []
  | x :: xs => if x = '.' then '\\' :: '.' :: escapeDots xs else x :: escapeDots xs

/-- Rust str::contains("..") — two consecutive dots somewhere. -/
def hasDoubleDot : List Char → Bool
  | [] => false
  | [_] => false
  | x :: y :: xs => (x == '.' && y == '.') || hasDoubleDot (y :: xs)

/-! ## IP addresses and networks (std::net / the ipnetwork crate) -/

/-- std::net::IpAddr; the address value as a Nat (< 2^32 resp. < 2^128). -/
inductive IpAddr where
  | v4 (a : Nat)
  | v6 (a : Nat)
deriving DecidableEq

/-- ipnetwork::Ipv4Network: the stored (possibly unmasked) address and the
CIDR length. -/
structure Ipv4Network where
  addr : Nat
  prefixLen : Nat
deriving DecidableEq

/-- ipnetwork::Ipv6Network. -/
structure Ipv6Network where
  addr : Nat
  prefixLen : Nat
deriving DecidableEq

/-- Ipv4Network::network(): the address with the host bits masked off. -/
def Ipv4Network.network (n : Ipv4Network) : Nat :=
  n.addr / 2 ^ (32 - n.prefixLen) * 2 ^ (32 - n.prefixLen)

/-- Ipv4Network::broadcast(): the highest address of the block. -/
def Ipv4Network.broadcast (n : Ipv4Network) : Nat :=
  n.network + (2 ^ (32 - n.prefixLen) - 1)

/-- Ipv4Network::contains: the address agrees with the network on the prefix
bits. -/
def Ipv4Network.containsN (n : Ipv4Network) (ip : Nat) : Bool :=
  ip / 2 ^ (32 - n.prefixLen) == n.addr / 2 ^ (32 - n.prefixLen)

/-- Ipv4Network::overlaps, as the crate implements it (endpoint containment;
equivalent to range intersection for CIDR blocks). -/
def Ipv4Network.overlaps (a b : Ipv4Network) : Bool :=
  b.containsN a.addr || b.containsN a.broadcast ||
  a.containsN b.addr || a.containsN b.broadcast

/-- Ipv6Network::network(). -/
def Ipv6Network.network (n : Ipv6Network) : Nat :=
  n.addr / 2 ^ (128 - n.prefixLen) * 2 ^ (128 - n.prefixLen)

/-- Ipv6Network::broadcast(). -/
def Ipv6Network.broadcast (n : Ipv6Network) : Nat :=
  n.network + (2 ^ (128 - n.prefixLen) - 1)

/-- Ipv6Network::contains. -/
def Ipv6Network.containsN (n : Ipv6Network) (ip : Nat) : Bool :=
  ip / 2 ^ (128 - n.prefixLen) == n.addr / 2 ^ (128 - n.prefixLen)

/-- Ipv6Network::overlaps. -/
def Ipv6Network.overlaps (a b : Ipv6Network) : Bool :=
  b.containsN a.addr || b.containsN a.broadcast ||
  a.containsN b.addr || a.containsN b.broadcast

/-- ipnetwork::IpNetwork. -/
inductive IpNetwork where
  | v4 (n : Ipv4Network)
  | v6 (n : Ipv6Network)
deriving DecidableEq

/-- IpNetwork::contains(IpAddr): false across families, mask comparison
within a family. -/
def IpNetwork.containsAddr : IpNetwork → IpAddr → Bool
  | .v4 n, .v4 a => n.containsN a
  | .v6 n, .v6 a => n.containsN a
  | _, _ => false

/-! ## Resolved record types (src/record.rs) -/

structure ARecord where
  name : String
  ip : IpAddr
  ttl : Nat
deriving DecidableEq

structure PtrRecord where
  name : String
  ip : IpAddr
  ttl : Nat
deriving DecidableEq

structure NsRecord where
  name : String
  ttl : Nat
deriving DecidableEq

structure MxRecord where
  name : String
  ttl : Nat
  prio : Nat
deriving DecidableEq

structure CnameRecord where
  name : String
  target : String
  ttl : Nat
deriving DecidableEq

structure SrvRecord where
  name : String
  target : String
  ttl : Nat
  prio : Nat
  weight : Nat
  port : Nat
deriving DecidableEq

/-! ## Errors: one constructor per bail!/anyhow! site, with the data the
message interpolates. -/

inductive ZErr where
  | nameTooLong (name : String)
  | notFqdn (name : String)
  | emptyLabel (name : String)
  | labelTooLong (label : String)
  | wildcardNotLeftmost (name : String)
  | wildcardNotEntire (label : String)
  | labelHyphen (label : String)
  | labelBadChar (label : String)
  | emailTooLong (email : String)
  | emailNoAt (email : String)
  | localEmpty
  | localTooLong (lp : String)
  | localDotEdge (lp : String)
  | localDoubleDot (lp : String)
  | localBadChar (lp : String)
  | domainEmpty
  | domainNoDot (domain : String)
  | domainEmptyLabel (domain : String)
  | domainLabelTooLong (label : String)
  | domainLabelHyphen (label : String)
  | domainLabelBadChar (label : String)
  | tldNumeric (tld : String)
  | hostNotFqdn (host : String)
  | srvTooShort (name : String)
  | srvServiceUnderscore (label : String)
  | srvProtoUnderscore (label : String)
  | emailMissingAt (raw : String)
  | needsNameserver (zone : String)
  | emailRequired
  | retryGeRefresh (retry : Nat) (refresh : Nat)
  | duplicatePtr (p : PtrRecord)
  | overlap4 (current : Ipv4Network) (accepted : Ipv4Network)
  | overlap6 (current : Ipv6Network) (accepted : Ipv6Network)
deriving DecidableEq

/-! ## Validators (src/validation.rs) -/

/-- One iteration of the label loop in validate_dns_name (i is the
enumerate index). -/
def checkLabel (name : String) (i : Nat) (label : String) : Except ZErr Unit :=
  if rustLen label = 0 then .error (.emptyLabel name)
  else if rustLen label > 63 then .error (.labelTooLong label)
  else if strContainsChar label '*' then
    if i ≠ 0 then .error (.wildcardNotLeftmost name)
    else if label ≠ "*" then .error (.wildcardNotEntire label)
    else .ok ()
  else if strStartsWith label "-" || strEndsWith label "-" then
    .error (.labelHyphen label)
  else if !(label.data.all fun c => isAlnum c || c == '-' || c == '_') then
    .error (.labelBadChar label)
  else .ok ()

/-- The enumerated label loop of validate_dns_name. -/
def checkLabels (name : String) : Nat → List String → Except ZErr Unit
  | _, [] => .ok ()
  | i, l :: ls =>
    match checkLabel name i l with
    | .error e => .error e
    | .ok _ => checkLabels name (i + 1) ls

/-- validation.rs: validate_dns_name. -/
def validate_dns_name (name : String) : Except ZErr Unit :=
  if rustLen name > 253 then .error (.nameTooLong name)
  else if !(strEndsWith name ".") then .error (.notFqdn name)
  else checkLabels name 0 (strSplit '.' (dropTrailingDots name))

/-- The domain-label loop of validate_email. -/
def checkEmailLabels (domain : String) : List String → Except ZErr Unit
  | [] => .ok ()
  | l :: ls =>
    if rustLen l = 0 then .error (.domainEmptyLabel domain)
    else if rustLen l > 63 then .error (.domainLabelTooLong l)
    else if strStartsWith l "-" || strEndsWith l "-" then
      .error (.domainLabelHyphen l)
    else if !(l.data.all fun c => isAlnum c || c == '-') then
      .error (.domainLabelBadChar l)
    else checkEmailLabels domain ls

/-- validation.rs: validate_email. -/
def validate_email (email : String) : Except ZErr Unit :=
  if rustLen email > 254 then .error (.emailTooLong email)
  else
    match splitOnceChar '@' email with
    | none => .error (.emailNoAt email)
    | some (lp, domain) =>
      if rustLen lp = 0 then .error .localEmpty
      else if rustLen lp > 64 then .error (.localTooLong lp)
      else if strStartsWith lp "." || strEndsWith lp "." then
        .error (.localDotEdge lp)
      else if hasDoubleDot lp.data then .error (.localDoubleDot lp)
      else if !(lp.data.all fun c =>
          isAlnum c || c == '.' || c == '+' || c == '-' || c == '_') then
        .error (.localBadChar lp)
      else if rustLen domain = 0 then .error .domainEmpty
      else if !(strContainsChar domain '.') then .error (.domainNoDot domain)
      else
        match checkEmailLabels domain (strSplit '.' domain) with
        | .error e => .error e
        | .ok _ =>
          match (strSplit '.' domain).getLast? with
          | some tld =>
            if tld.data.all Char.isDigit then .error (.tldNumeric tld)
            else .ok ()
          | none => .ok ()

/-! ## Normalizer (src/transform.rs) -/

/-- transform.rs: parse_host_str. -/
def parse_host_str (name zone_name : String) : Except ZErr String :=
  let host := rustTrim name
  if strEndsWith host "." then .ok host
  else if zone_name = "" then .error (.hostNotFqdn host)
  else if host = "@" then .ok zone_name
  else .ok (host ++ "." ++ zone_name)

/-- transform.rs: parse_srv_name (the wildcard arm is the parts.len() < 2
bail). -/
def parse_srv_name (name zone_name : String) : Except ZErr String :=
  let srv_name := rustTrim name
  match strSplit '.' srv_name with
  | p0 :: p1 :: _ =>
    if !(strStartsWith p0 "_") then .error (.srvServiceUnderscore p0)
    else if !(strStartsWith p1 "_") then .error (.srvProtoUnderscore p1)
    else parse_host_str srv_name zone_name
  | _ => .error (.srvTooShort srv_name)

/-- transform.rs: parse_email. -/
def parse_email (raw : String) : Except ZErr String :=
  match splitOnceChar '@' raw with
  | none => .error (.emailMissingAt raw)
  | some (lp, domain) =>
    let escaped_local : String := ⟨escapeDots lp.data⟩
    let dom := if strEndsWith domain "." then domain else domain ++ "."
    let email := escaped_local ++ "." ++ dom
    match validate_email email with
    | .error e => .error e
    | .ok _ => .ok email

/-! ## Polymorphic value model (src/parser.rs) -/

/-- parser.rs: SingleOrVecValue. -/
inductive SingleOrVecValue (α : Type) where
  | single (a : α)
  | multiple (l : List α)
deriving DecidableEq

/-- SingleOrVecValue::to_vec. -/
def SingleOrVecValue.to_vec : SingleOrVecValue α → List α
  | .single a => [a]
  | .multiple l => l

/-- parser.rs: StringOrTableValue. -/
inductive StringOrTableValue (α : Type) where
  | entry (s : String)
  | table (t : α)
deriving DecidableEq

/-- parser.rs: NameserverEntry (the TTL wrapper is just the number here). -/
structure NameserverEntry where
  name : String
  ttl : Option Nat
deriving DecidableEq

/-- parser.rs: MxEntry. -/
structure MxEntry where
  name : String
  prio : Option Nat
  ttl : Option Nat
deriving DecidableEq

/-- StringOrTableValue::<MxEntry>::to_entry. -/
def StringOrTableValue.to_entry : StringOrTableValue MxEntry → MxEntry
  | .entry v => { name := v, prio := none, ttl := none }
  | .table v => v

/-- parser.rs: CnameEntry. -/
structure CnameEntry where
  target : String
  ttl : Option Nat
deriving DecidableEq

/-- parser.rs: SrvEntry. -/
structure SrvEntry where
  target : String
  port : Nat
  ttl : Option Nat
  prio : Option Nat
  weight : Option Nat
deriving DecidableEq

/-- parser.rs: HostEntry (field with-ptr). -/
structure HostEntry where
  ip : SingleOrVecValue IpAddr
  «alias» : Option (SingleOrVecValue String)
  ttl : Option Nat
  with_ptr : Option Bool
deriving DecidableEq

/-- parser.rs: HostValue. -/
inductive HostValue where
  | ip (v : SingleOrVecValue IpAddr)
  | entry (e : HostEntry)
deriving DecidableEq

/-- parser.rs: ReverseEntry (the serde-flattened ZoneBaseEntry inlined, as
transform.rs accesses the fields). -/
structure ReverseEntry where
  serial : Option Nat
  email : Option String
  expire : Option Nat
  nameserver : Option (SingleOrVecValue (StringOrTableValue NameserverEntry))
  nrc_ttl : Option Nat
  refresh : Option Nat
  retry : Option Nat
  ttl : Option Nat
deriving DecidableEq

/-- parser.rs: Zone (the serde-flattened ZoneBaseEntry inlined, as
transform.rs accesses the fields; the hosts/cname/srv HashMaps are
association lists in an arbitrary iteration order). -/
structure Zone where
  name : String
  serial : Option Nat
  email : Option String
  expire : Option Nat
  nameserver : Option (SingleOrVecValue (StringOrTableValue NameserverEntry))
  nrc_ttl : Option Nat
  refresh : Option Nat
  retry : Option Nat
  ttl : Option Nat
  mx : Option (SingleOrVecValue (StringOrTableValue MxEntry))
  mx_prio : Option Nat
  srv_prio : Option Nat
  srv_weight : Option Nat
  with_ptr : Option Bool
  hosts : Option (List (String × HostValue))
  cname : Option (List (String × StringOrTableValue CnameEntry))
  srv : Option (List (String × SrvEntry))
deriving DecidableEq

/-- parser.rs: RawDefaults (Email wrapper flattened to the validated raw
string). -/
structure RawDefaults where
  serial : Option Nat
  email : Option String
  expire : Nat
  mx : Option (SingleOrVecValue (StringOrTableValue MxEntry))
  mx_prio : Nat
  nameserver : Option (SingleOrVecValue String)
  nrc_ttl : Nat
  refresh : Nat
  retry : Nat
  srv_prio : Nat
  srv_weight : Nat
  ttl : Nat
  with_ptr : Bool
deriving DecidableEq

/-- parser.rs: SessionDefaults. -/
structure SessionDefaults where
  serial : Nat
  email : Option String
  expire : Nat
  mx : List MxEntry
  mx_prio : Nat
  nameserver : List String
  nrc_ttl : Nat
  refresh : Nat
  retry : Nat
  srv_prio : Nat
  srv_weight : Nat
  ttl : Nat
  with_ptr : Bool
deriving DecidableEq

/-- parser.rs: ZoneBase. -/
structure ZoneBase where
  serial : Nat
  name : String
  email : String
  expire : Nat
  nameserver : List NsRecord
  nrc_ttl : Nat
  refresh : Nat
  retry : Nat
  ttl : Nat
deriving DecidableEq

/-- parser.rs: ForwardZone. -/
structure ForwardZone where
  base : ZoneBase
  mx : List MxRecord
  hosts : List ARecord
  cname : List CnameRecord
  srv : List SrvRecord
deriving DecidableEq

/-- parser.rs: ReverseZone. -/
structure ReverseZone where
  base : ZoneBase
  ptr : List PtrRecord
  split : Nat
deriving DecidableEq

/-! ## Forward record derivation (src/transform.rs) -/

/-- The iterator body of parse_mx's Some branch, collect-style (fail fast). -/
def parse_mx_entries (zone_name : String) (default_ttl default_mx_prio : Nat) :
    List (StringOrTableValue MxEntry) → Except ZErr (List MxRecord)
  | [] => .ok []
  | e :: rest =>
    let nt : String × Nat × Nat :=
      match e with
      | .entry s => (s, default_ttl, default_mx_prio)
      | .table t => (t.name, t.ttl.getD default_ttl, t.prio.getD default_mx_prio)
    match parse_host_str nt.1 zone_name with
    | .error err => .error err
    | .ok fqdn =>
      match validate_dns_name fqdn with
      | .error err => .error err
      | .ok _ =>
        match parse_mx_entries zone_name default_ttl default_mx_prio rest with
        | .error err => .error err
        | .ok rs => .ok ({ name := fqdn, ttl := nt.2.1, prio := nt.2.2 } :: rs)

/-- transform.rs: parse_mx. -/
def parse_mx (raw : Option (SingleOrVecValue (StringOrTableValue MxEntry)))
    (zone_name : String) (default_ttl default_mx_prio : Nat)
    (default_mx : List MxEntry) : Except ZErr (List MxRecord) :=
  match raw with
  | some entry => parse_mx_entries zone_name default_ttl default_mx_prio entry.to_vec
  | none => .ok (default_mx.map fun e =>
      { name := e.name, ttl := e.ttl.getD default_ttl, prio := e.prio.getD default_mx_prio })

/-- The iterator body of parse_ns's Some branch, collect-style (fail fast). -/
def parse_ns_entries (zone_name : String) (default_ttl : Nat) :
    List (StringOrTableValue NameserverEntry) → Except ZErr (List NsRecord)
  | [] => .ok []
  | e :: rest =>
    let nt : String × Nat :=
      match e with
      | .entry s => (s, default_ttl)
      | .table t => (t.name, t.ttl.getD default_ttl)
    match parse_host_str nt.1 zone_name with
    | .error err => .error err
    | .ok fqdn =>
      match validate_dns_name fqdn with
      | .error err => .error err
      | .ok _ =>
        match parse_ns_entries zone_name default_ttl rest with
        | .error err => .error err
        | .ok rs => .ok ({ name := fqdn, ttl := nt.2 } :: rs)

/-- transform.rs: parse_ns. -/
def parse_ns (raw : Option (SingleOrVecValue (StringOrTableValue NameserverEntry)))
    (zone_name : String) (default_ttl : Nat) (default_ns : List String) :
    Except ZErr (List NsRecord) :=
  match raw with
  | some zone_ns => parse_ns_entries zone_name default_ttl zone_ns.to_vec
  | none =>
    if default_ns.isEmpty then .error (.needsNameserver zone_name)
    else .ok (default_ns.map fun name => { name := name, ttl := default_ttl })

/-- The iterator body of parse_cname. -/
def parse_cname_entries (zone_name : String) (default_ttl : Nat) :
    List (String × StringOrTableValue CnameEntry) → Except ZErr (List CnameRecord)
  | [] => .ok []
  | (cname, e) :: rest =>
    match parse_host_str cname zone_name with
    | .error err => .error err
    | .ok name =>
      let ht : String × Nat :=
        match e with
        | .entry s => (s, default_ttl)
        | .table t => (t.target, t.ttl.getD default_ttl)
      match parse_host_str ht.1 zone_name with
      | .error err => .error err
      | .ok target =>
        match parse_cname_entries zone_name default_ttl rest with
        | .error err => .error err
        | .ok rs => .ok ({ name, target, ttl := ht.2 } :: rs)

/-- transform.rs: parse_cname. -/
def parse_cname (raw : Option (List (String × StringOrTableValue CnameEntry)))
    (zone_name : String) (default_ttl : Nat) : Except ZErr (List CnameRecord) :=
  parse_cname_entries zone_name default_ttl (raw.getD [])

/-- The iterator body of parse_srv. -/
def parse_srv_entries (zone_name : String)
    (default_ttl default_srv_prio default_srv_weight : Nat) :
    List (String × SrvEntry) → Except ZErr (List SrvRecord)
  | [] => .ok []
  | (srv_name, e) :: rest =>
    match parse_srv_name srv_name zone_name with
    | .error err => .error err
    | .ok name =>
      match parse_host_str e.target zone_name with
      | .error err => .error err
      | .ok target =>
        match parse_srv_entries zone_name default_ttl default_srv_prio default_srv_weight rest with
        | .error err => .error err
        | .ok rs =>
          let ttl := e.ttl.getD default_ttl
          let prio := e.prio.getD default_srv_prio
          let weight := e.weight.getD default_srv_weight
          .ok ({ name := name, target := target, ttl, prio, weight, port := e.port } :: rs)

/-- transform.rs: parse_srv. -/
def parse_srv (raw : Option (List (String × SrvEntry))) (zone_name : String)
    (default_ttl default_srv_prio default_srv_weight : Nat) :
    Except ZErr (List SrvRecord) :=
  parse_srv_entries zone_name default_ttl default_srv_prio default_srv_weight (raw.getD [])

/-- parse_hosts, inner alias loop: one A record per alias at this address. -/
def host_alias_records (zone_name : String) (ip : IpAddr) (ttl : Nat) :
    List String → Except ZErr (List ARecord)
  | [] => .ok []
  | al :: rest =>
    match parse_host_str al zone_name with
    | .error err => .error err
    | .ok name =>
      match host_alias_records zone_name ip ttl rest with
      | .error err => .error err
      | .ok rs => .ok ({ name, ip, ttl } :: rs)

/-- parse_hosts, per-address loop: host record, alias records, and the PTR
candidate when with-ptr holds and the FQDN is not a wildcard. -/
def host_ip_records (fqdn zone_name : String) (aliases : List String)
    (ttl : Nat) (with_ptr : Bool) :
    List IpAddr → Except ZErr (List ARecord × List PtrRecord)
  | [] => .ok ([], [])
  | ip :: rest =>
    match host_alias_records zone_name ip ttl aliases with
    | .error err => .error err
    | .ok als =>
      match host_ip_records fqdn zone_name aliases ttl with_ptr rest with
      | .error err => .error err
      | .ok (ars, ptrs) =>
        let ptr_here : List PtrRecord :=
          if with_ptr && !(strStartsWith fqdn "*") then [{ name := fqdn, ip, ttl }]
          else []
        .ok (({ name := fqdn, ip, ttl } :: als) ++ ars, ptr_here ++ ptrs)

/-- parse_hosts, outer entry loop. -/
def parse_hosts_entries (zone_name : String) (default_ttl : Nat)
    (default_with_ptr : Bool) :
    List (String × HostValue) → Except ZErr (List ARecord × List PtrRecord)
  | [] => .ok ([], [])
  | (hostname, value) :: rest =>
    match parse_host_str hostname zone_name with
    | .error err => .error err
    | .ok fqdn =>
      let iatw : List IpAddr × List String × Nat × Bool :=
        match value with
        | .ip v => (v.to_vec, [], default_ttl, default_with_ptr)
        | .entry e => (e.ip.to_vec, (e.«alias».map SingleOrVecValue.to_vec).getD [],
            e.ttl.getD default_ttl, e.with_ptr.getD default_with_ptr)
      match host_ip_records fqdn zone_name iatw.2.1 iatw.2.2.1 iatw.2.2.2 iatw.1 with
      | .error err => .error err
      | .ok (as1, ps1) =>
        match parse_hosts_entries zone_name default_ttl default_with_ptr rest with
        | .error err => .error err
        | .ok (as2, ps2) => .ok (as1 ++ as2, ps1 ++ ps2)

/-- transform.rs: parse_hosts. -/
def parse_hosts (raw : Option (List (String × HostValue))) (zone_name : String)
    (default_ttl : Nat) (default_with_ptr : Bool) :
    Except ZErr (List ARecord × List PtrRecord) :=
  parse_hosts_entries zone_name default_ttl default_with_ptr (raw.getD [])

/-! ## Reverse-zone arithmetic (src/transform.rs) -/

/-- Byte i of a 32-bit value, big-endian (Ipv4Addr::octets()). -/
def octet (ip i : Nat) : Nat := ip / 2 ^ (8 * (3 - i)) % 256

/-- Nibble i of a 128-bit value, big-endian (position i of the {:032x}
rendering). -/
def nibble (ip i : Nat) : Nat := ip / 16 ^ (31 - i) % 16

/-- The lowercase hex digit for a nibble value. -/
def nibbleChar : Nat → Char
  | 0 => '0' | 1 => '1' | 2 => '2' | 3 => '3'
  | 4 => '4' | 5 => '5' | 6 => '6' | 7 => '7'
  | 8 => '8' | 9 => '9' | 10 => 'a' | 11 => 'b'
  | 12 => 'c' | 13 => 'd' | 14 => 'e' | 15 => 'f'
  | _ => '?'

/-- transform.rs: create_reverse_zone_name. -/
def create_reverse_zone_name (network : IpNetwork) : String × Nat :=
  match network with
  | .v4 net =>
    let split := (32 - net.prefixLen) / 8
    let ip := net.network
    let zone_octets := net.prefixLen / 8
    let parts := (List.range zone_octets).reverse.map fun i => Nat.repr (octet ip i)
    (String.intercalate "." parts ++ ".in-addr.arpa.", split)
  | .v6 net =>
    let split := (128 - net.prefixLen) / 4
    let ip := net.network
    let zone_nibbles := net.prefixLen / 4
    let parts := (((List.range 32).map fun i => nibbleChar (nibble ip i)).take
        zone_nibbles).reverse.map fun c => String.mk [c]
    (String.intercalate "." parts ++ ".ip6.arpa.", split)

/-- transform.rs: ip_name (the per-record short label; not needed by the
claims' theorems but part of the reverse model). -/
def ip_name (address : IpAddr) (split : Nat) : String :=
  match address with
  | .v4 addr =>
    String.intercalate "." ((List.range split).map fun i => Nat.repr (octet addr (3 - i)))
  | .v6 addr =>
    String.intercalate "." ((((List.range 32).map fun i =>
      nibbleChar (nibble addr i)).reverse.take split).map fun c => String.mk [c])

/-! ## Defaults resolver (src/parser.rs: SessionDefaults::from_raw) -/

/-- The default-nameserver validation loop of from_raw. -/
def validate_ns_list : List String → Except ZErr Unit
  | [] => .ok ()
  | n :: rest =>
    match validate_dns_name n with
    | .error e => .error e
    | .ok _ => validate_ns_list rest

/-- parser.rs: SessionDefaults::from_raw. -/
def SessionDefaults.from_raw (raw : RawDefaults) (gen_serial : Nat) :
    Except ZErr SessionDefaults :=
  let serial := raw.serial.getD gen_serial
  if raw.retry ≥ raw.refresh then .error (.retryGeRefresh raw.retry raw.refresh)
  else
    let emailRes : Except ZErr (Option String) :=
      match raw.email with
      | some validated_email =>
        match parse_email validated_email with
        | .error e => .error e
        | .ok m => .ok (some m)
      | none => .ok none
    match emailRes with
    | .error e => .error e
    | .ok email =>
      let nameserver := (raw.nameserver.map SingleOrVecValue.to_vec).getD []
      match validate_ns_list nameserver with
      | .error e => .error e
      | .ok _ =>
        let mx := ((raw.mx.map SingleOrVecValue.to_vec).getD []).map
          StringOrTableValue.to_entry
        .ok { serial, email, expire := raw.expire, mx, mx_prio := raw.mx_prio,
              nameserver, nrc_ttl := raw.nrc_ttl, refresh := raw.refresh,
              retry := raw.retry, srv_prio := raw.srv_prio,
              srv_weight := raw.srv_weight, ttl := raw.ttl,
              with_ptr := raw.with_ptr }

/-- The shared zone/default email fallback of parse_forward and
parse_reverse. -/
def resolve_email (zoneEmail defaultEmail : Option String) : Except ZErr String :=
  match zoneEmail with
  | some mail => parse_email mail
  | none =>
    match defaultEmail with
    | some default_mail => .ok default_mail
    | none => .error .emailRequired

/-- transform.rs: parse_forward. -/
def parse_forward (raw : Zone) (defaults : SessionDefaults) :
    Except ZErr (ForwardZone × List PtrRecord) :=
  let zone_name := if strEndsWith raw.name "." then raw.name else raw.name ++ "."
  let serial := raw.serial.getD defaults.serial
  let expire := raw.expire.getD defaults.expire
  let mx_prio := raw.mx_prio.getD defaults.mx_prio
  let nrc_ttl := raw.nrc_ttl.getD defaults.nrc_ttl
  let refresh := raw.refresh.getD defaults.refresh
  let retry := raw.retry.getD defaults.retry
  let srv_prio := raw.srv_prio.getD defaults.srv_prio
  let srv_weight := raw.srv_weight.getD defaults.srv_weight
  let ttl := raw.ttl.getD defaults.ttl
  let with_ptr := raw.with_ptr.getD defaults.with_ptr
  if retry ≥ refresh then .error (.retryGeRefresh retry refresh)
  else
    match resolve_email raw.email defaults.email with
    | .error e => .error e
    | .ok email =>
      match parse_hosts raw.hosts zone_name ttl with_ptr with
      | .error e => .error e
      | .ok (hosts, ptr) =>
        match parse_mx raw.mx zone_name ttl mx_prio defaults.mx with
        | .error e => .error e
        | .ok mx =>
          match parse_ns raw.nameserver zone_name ttl defaults.nameserver with
          | .error e => .error e
          | .ok nameserver =>
            match parse_cname raw.cname zone_name ttl with
            | .error e => .error e
            | .ok cname =>
              match parse_srv raw.srv zone_name ttl srv_prio srv_weight with
              | .error e => .error e
              | .ok srv =>
                .ok ({ base := { serial, name := zone_name, email, expire,
                                 nameserver, nrc_ttl, refresh, retry, ttl },
                       mx, hosts, cname, srv }, ptr)

/-! ## Reverse-zone derivation (src/transform.rs: parse_reverse) -/

/-- The overlap check and accumulator push at the head of each parse_reverse
iteration. -/
def register_net (net4 : List Ipv4Network) (net6 : List Ipv6Network) :
    IpNetwork → Except ZErr (List Ipv4Network × List Ipv6Network)
  | .v4 n4 =>
    match net4.find? (fun n => n.overlaps n4) with
    | some n => .error (.overlap4 n4 n)
    | none => .ok (net4 ++ [n4], net6)
  | .v6 n6 =>
    match net6.find? (fun n => n.overlaps n6) with
    | some n => .error (.overlap6 n6 n)
    | none => .ok (net4, net6 ++ [n6])

/-- HashMap::extract_if with net.contains: the claimed PTR records and the
remaining pool. -/
def ptr_partition (net : IpNetwork) (pool : List (IpAddr × PtrRecord)) :
    List PtrRecord × List (IpAddr × PtrRecord) :=
  ((pool.filter fun q => net.containsAddr q.1).map Prod.snd,
   pool.filter fun q => !(net.containsAddr q.1))

/-- The per-network body of parse_reverse after the overlap check: timers,
retry<refresh re-check, email fallback, nameservers, PTR claiming. -/
def reverse_entry_zone (defaults : SessionDefaults) (net : IpNetwork)
    (entry : ReverseEntry) (pool : List (IpAddr × PtrRecord)) :
    Except ZErr (ReverseZone × List (IpAddr × PtrRecord)) :=
  let ns := create_reverse_zone_name net
  let serial := entry.serial.getD defaults.serial
  let expire := entry.expire.getD defaults.expire
  let nrc_ttl := entry.nrc_ttl.getD defaults.nrc_ttl
  let refresh := entry.refresh.getD defaults.refresh
  let retry := entry.retry.getD defaults.retry
  let ttl := entry.ttl.getD defaults.ttl
  if retry ≥ refresh then .error (.retryGeRefresh retry refresh)
  else
    match resolve_email entry.email defaults.email with
    | .error e => .error e
    | .ok email =>
      match parse_ns entry.nameserver ns.1 ttl defaults.nameserver with
      | .error e => .error e
      | .ok nameserver =>
        let cp := ptr_partition net pool
        .ok ({ base := { serial, name := ns.1, email, expire, nameserver,
                         nrc_ttl, refresh, retry, ttl },
               ptr := cp.1, split := ns.2 }, cp.2)

/-- The parse_reverse iteration over the declared networks, threading the
accepted-network accumulators and the PTR pool. -/
def parse_reverse_entries (defaults : SessionDefaults) :
    List Ipv4Network → List Ipv6Network → List (IpAddr × PtrRecord) →
    List (IpNetwork × ReverseEntry) → Except ZErr (List ReverseZone)
  | _, _, _, [] => .ok []
  | net4, net6, pool, (net, entry) :: rest =>
    match register_net net4 net6 net with
    | .error e => .error e
    | .ok nets =>
      match reverse_entry_zone defaults net entry pool with
      | .error e => .error e
      | .ok (z, pool') =>
        match parse_reverse_entries defaults nets.1 nets.2 pool' rest with
        | .error e => .error e
        | .ok zs => .ok (z :: zs)

/-- transform.rs: parse_reverse. -/
def parse_reverse (raw : Option (List (IpNetwork × ReverseEntry)))
    (defaults : SessionDefaults) (ptrs : List (IpAddr × PtrRecord)) :
    Except ZErr (List ReverseZone) :=
  parse_reverse_entries defaults [] [] ptrs (raw.getD [])

/-! ## Top-level resolution (src/parser.rs: parse) -/

/-- The shared-pool insertion loop of parse: a PTR candidate whose address is
already pooled is fatal. -/
def insert_ptrs (pool : List (IpAddr × PtrRecord)) :
    List PtrRecord → Except ZErr (List (IpAddr × PtrRecord))
  | [] => .ok pool
  | p :: rest =>
    if pool.any fun q => q.1 = p.ip then .error (.duplicatePtr p)
    else insert_ptrs (pool ++ [(p.ip, p)]) rest

/-- The forward-zone loop of parse: resolve each zone, pooling its PTR
candidates. -/
def process_zones (defaults : SessionDefaults) :
    List (IpAddr × PtrRecord) → List Zone →
    Except ZErr (List ForwardZone × List (IpAddr × PtrRecord))
  | pool, [] => .ok ([], pool)
  | pool, z :: rest =>
    match parse_forward z defaults with
    | .error e => .error e
    | .ok (fz, ptrs) =>
      match insert_ptrs pool ptrs with
      | .error e => .error e
      | .ok pool' =>
        match process_zones defaults pool' rest with
        | .error e => .error e
        | .ok (fzs, final) => .ok (fz :: fzs, final)

/-- parser.rs: Content, after the decode-layer unions (Zones map/array,
ReverseValue) have been normalized to lists. -/
structure Content where
  defaults : RawDefaults
  reverse : Option (List (IpNetwork × ReverseEntry))
  zone : Option (List Zone)

/-- parser.rs: parse (the resolution pipeline after deserialization). -/
def parse (content : Content) (serial : Nat) :
    Except ZErr (List ForwardZone × List ReverseZone) :=
  match SessionDefaults.from_raw content.defaults serial with
  | .error e => .error e
  | .ok defaults =>
    match process_zones defaults [] (content.zone.getD []) with
    | .error e => .error e
    | .ok (forward, pool) =>
      match parse_reverse content.reverse defaults pool with
      | .error e => .error e
      | .ok reverse => .ok (forward, reverse)

/-! ## Serial manager (src/serial.rs) -/

/-- The date calc_serial reads from the wall clock, made an explicit
parameter. -/
structure SDate where
  year : Nat
  month : Nat
  day : Nat
deriving DecidableEq

/-- The YYYYMMDD00 seed computed inside calc_serial, in u32 arithmetic. -/
def date_seed (d : SDate) : Nat :=
  (d.year * 1000000 + d.month * 10000 + d.day * 100) % 2 ^ 32

/-- serial.rs: calc_serial.  u32 arithmetic is Nat mod 2^32; the increment
wraps exactly where the release-mode u32 addition would. -/
def calc_serial (today : SDate) (old_serial : Nat) : Nat :=
  max ((old_serial + 1) % 2 ^ 32) (date_seed today)

/-! ## Concrete fixtures used by counterexamples and witnesses -/

/-- 192.168.1.0/24. -/
def net192 : Ipv4Network := ⟨0xC0A80100, 24⟩

/-- 10.0.0.0/16. -/
def net10 : Ipv4Network := ⟨0x0A000000, 16⟩

/-- fd00:1234:5678:1::/64. -/
def netfd : Ipv6Network := ⟨0xfd001234567800010000000000000000, 64⟩

/-- A fully resolved session-defaults record with a valid mailbox and one
default nameserver, retry < refresh. -/
def d0 : SessionDefaults :=
  { serial := 1, email := some "admin.example.com.", expire := 1209600, mx := [],
    mx_prio := 10, nameserver := ["ns1.example.com."], nrc_ttl := 3600,
    refresh := 7200, retry := 900, srv_prio := 10, srv_weight := 5, ttl := 3600,
    with_ptr := true }

/-- A zone that supplies an explicitly empty nameserver list and nothing
else. -/
def z0 : Zone :=
  { name := "example.com", serial := none, email := none, expire := none,
    nameserver := some (.multiple []), nrc_ttl := none, refresh := none,
    retry := none, ttl := none, mx := none, mx_prio := none, srv_prio := none,
    srv_weight := none, with_ptr := none, hosts := none, cname := none,
    srv := none }

/-- A zone whose only override is retry = 9000, reintroducing retry ≥ refresh
against d0 (whose own values satisfy the rule). -/
def z1 : Zone :=
  { name := "example.com", serial := none, email := none, expire := none,
    nameserver := none, nrc_ttl := none, refresh := none,
    retry := some 9000, ttl := none, mx := none, mx_prio := none,
    srv_prio := none, srv_weight := none, with_ptr := none, hosts := none,
    cname := none, srv := none }

/-- Raw global defaults violating retry < refresh. -/
def rdBad : RawDefaults :=
  { serial := none, email := none, expire := 1209600, mx := none, mx_prio := 10,
    nameserver := none, nrc_ttl := 3600, refresh := 3600, retry := 3600,
    srv_prio := 10, srv_weight := 5, ttl := 3600, with_ptr := false }

/-- A reverse-zone entry with no overrides at all. -/
def rev0 : ReverseEntry :=
  { serial := none, email := none, expire := none, nameserver := none,
    nrc_ttl := none, refresh := none, retry := none, ttl := none }

/-! ## Claim C1 (code bug: parse_email rejects every address) -/

/-- Claim C1: the spec (and the repository's own unit tests
test_parse_email_valid / test_parse_email_with_dot) say parse_email succeeds
on syntactically valid addresses and returns the SOA mailbox encoding.  The
code instead re-validates the transformed mailbox — which no longer contains
an '@' — with validate_email, whose first step demands an '@': parse_email
therefore fails on every input, including the spec's two examples, although
the raw inputs do satisfy validate_email. -/
theorem c1_parse_email_broken :
    parse_email "admin@example.com" = .error (.emailNoAt "admin.example.com.") ∧
    parse_email "john.doe@example.com" = .error (.emailNoAt "john\\.doe.example.com.") ∧
    validate_email "admin@example.com" = .ok () ∧
    validate_email "john.doe@example.com" = .ok () := by
  decide

/-! ## Claim C2 (split arithmetic) -/

/-- Claim C2, counterexample: for 192.168.1.0/24 the code returns split = 1,
the number of octets below the prefix boundary, not 24 / 8 = 3 as the claim
states. -/
theorem c2_counterexample :
    (create_reverse_zone_name (.v4 net192)).2 = 1 ∧ 24 / 8 = 3 ∧
    (create_reverse_zone_name (.v4 net192)).2 ≠ 24 / 8 := by
  decide

/-- Claim C2, amended: for every IPv4 network the split count is
(32 − prefix length) / 8, truncated, and for every IPv6 network it is
(128 − prefix length) / 4, truncated (prefix/8 resp. prefix/4 is instead the
number of units making up the zone name). -/
theorem c2_split_arithmetic :
    ∀ (n4 : Ipv4Network) (n6 : Ipv6Network),
      (create_reverse_zone_name (.v4 n4)).2 = (32 - n4.prefixLen) / 8 ∧
      (create_reverse_zone_name (.v6 n6)).2 = (128 - n6.prefixLen) / 4 := by
  intro n4 n6
  exact ⟨rfl, rfl⟩

/-! ## Claim C9 (reverse zone name examples) -/

/-- Claim C9: the three worked examples of create_reverse_zone_name —
192.168.1.0/24, 10.0.0.0/16 and fd00:1234:5678:1::/64 — produce exactly the
reversed prefix-covered octet/nibble zone names and split counts the spec
gives. -/
theorem c9_reverse_zone_examples :
    create_reverse_zone_name (.v4 net192) = ("1.168.192.in-addr.arpa.", 1) ∧
    create_reverse_zone_name (.v4 net10) = ("0.10.in-addr.arpa.", 2) ∧
    create_reverse_zone_name (.v6 netfd) =
      ("1.0.0.0.8.7.6.5.4.3.2.1.0.0.d.f.ip6.arpa.", 16) := by
  decide

/-! ## Claim C10 (parse_host_str behaviour) -/

/-- Claim C10, counterexample: re-applying parse_host_str to one of its
successful outputs is not the identity for every zone argument: the output
"host.foo" (produced with the dot-less zone "foo") is re-qualified to
"host.foo.bar." when passed again with zone "bar.". -/
theorem c10_counterexample :
    parse_host_str "host" "foo" = .ok "host.foo" ∧
    parse_host_str "host.foo" "bar." = .ok "host.foo.bar." ∧
    (Except.ok "host.foo.bar." : Except ZErr String) ≠ .ok "host.foo" := by
  decide

/-- Claim C10, amended: parse_host_str trims the name, keeps an already
dot-terminated name, fails on an empty zone, maps the apex marker to the zone
and otherwise concatenates name.zone; the spec's three examples hold, and
re-application is the identity on outputs that are trimmed and end with a dot
(which covers every output formed from a dot-terminated, trimmed zone or from
an already-qualified name — but not outputs inheriting a dot-less zone). -/
theorem c10_parse_host_str :
    (parse_host_str "@" "example.com." = .ok "example.com.") ∧
    (parse_host_str "host" "example.com." = .ok "host.example.com.") ∧
    (parse_host_str "host." "anything" = .ok "host.") ∧
    (∀ name zone, rustTrim name = name → strEndsWith name "." = true →
      parse_host_str name zone = .ok name) ∧
    (∀ name, strEndsWith (rustTrim name) "." = false →
      parse_host_str name "" = .error (.hostNotFqdn (rustTrim name))) ∧
    (∀ name zone, strEndsWith (rustTrim name) "." = false → zone ≠ "" →
      rustTrim name ≠ "@" →
      parse_host_str name zone = .ok (rustTrim name ++ "." ++ zone)) := by
  refine ⟨by decide, by decide, by decide, ?_, ?_, ?_⟩
  · intro name zone h1 h2
    simp only [parse_host_str, h1, h2, if_true]
  · intro name h
    simp [parse_host_str, h]
  · intro name zone h hz hat
    simp [parse_host_str, h, hz, hat]

/-- Claim C10, witness: the amended idempotence applied at a concrete trimmed
dot-terminated output. -/
theorem c10_witness : parse_host_str "host.example.com." "zzz" = .ok "host.example.com." :=
  c10_parse_host_str.2.2.2.1 "host.example.com." "zzz" (by decide) (by decide)

/-! ## Claim C7 (serial arithmetic) -/

/-- Claim C7, counterexample: at old = 2^32 − 1 the u32 increment wraps, so
calc_serial returns the date seed (2025101200 on 2025-10-12), which is not
greater than old: the claim's "calc_serial(old) > old for every 32-bit old"
fails. -/
theorem c7_counterexample :
    calc_serial ⟨2025, 10, 12⟩ (2 ^ 32 - 1) = 2025101200 ∧
    ¬ calc_serial ⟨2025, 10, 12⟩ (2 ^ 32 - 1) > 2 ^ 32 - 1 := by
  decide

/-- Claim C7, amended: as long as the increment does not wrap (old + 1 <
2^32) and the date seed fits in a u32, calc_serial(old) is exactly
max(old + 1, seed), is strictly greater than old, is at least the seed (so
the first run on old = 0 is at least YYYYMMDD00), and equals old + 1 — a
step of exactly 1 — whenever old is already at or above the seed. -/
theorem c7_calc_serial :
    ∀ (d : SDate) (old : Nat),
      d.year * 1000000 + d.month * 10000 + d.day * 100 < 2 ^ 32 →
      old + 1 < 2 ^ 32 →
      calc_serial d old = max (old + 1) (d.year * 1000000 + d.month * 10000 + d.day * 100) ∧
      calc_serial d old > old ∧
      calc_serial d old ≥ date_seed d ∧
      (date_seed d ≤ old → calc_serial d old = old + 1) := by
  intro d old hseed hold
  simp only [calc_serial, date_seed, Nat.mod_eq_of_lt hseed, Nat.mod_eq_of_lt hold]
  refine ⟨trivial, ?_, ?_, ?_⟩ <;> omega

/-- Claim C7, witness: a same-day chained step at a concrete date. -/
theorem c7_witness : calc_serial ⟨2025, 10, 12⟩ 2025101205 = 2025101206 :=
  (c7_calc_serial ⟨2025, 10, 12⟩ 2025101205 (by decide) (by decide)).2.2.2 (by decide)

/-! ## Claim C3 (zero-nameserver zones) -/

/-- Claim C3, counterexample: a forward zone that supplies an explicitly
empty nameserver list resolves successfully — parse_forward returns ok — and
the resolved zone carries zero NS records, contradicting "a zone [that]
supplies an explicitly empty list makes resolution fail". -/
theorem c3_counterexample :
    (parse_forward z0 d0).toOption.map (fun p => p.1.base.nameserver) = some [] := by
  decide

/-- Claim C3, amended: resolution fails (with the needs-a-nameserver error)
exactly when the zone's nameserver field is absent and the session default
list is empty; an explicitly empty nameserver list is accepted and yields
zero NS records; and when the field is absent and resolution succeeds, the
zone has at least one NS record. -/
theorem c3_ns_resolution :
    (∀ zone ttl, parse_ns none zone ttl [] = .error (.needsNameserver zone)) ∧
    (∀ zone ttl ds, parse_ns (some (.multiple [])) zone ttl ds = .ok []) ∧
    (∀ zone ttl ds recs, parse_ns none zone ttl ds = .ok recs → recs ≠ []) := by
  refine ⟨?_, ?_, ?_⟩
  · intro zone ttl
    simp [parse_ns]
  · intro zone ttl ds
    simp [parse_ns, SingleOrVecValue.to_vec, parse_ns_entries]
  · intro zone ttl ds recs h
    simp only [parse_ns] at h
    split at h
    · exact absurd h (by simp)
    · next hds =>
      have : recs = ds.map fun name => { name := name, ttl := ttl } := by
        simpa using h.symm
      subst this
      simp_all [List.isEmpty_iff]

/-- Claim C3, witness: the nonemptiness consequence applied at a concrete
absent-field resolution. -/
theorem c3_witness :
    ([{ name := "ns1.example.com.", ttl := 3600 }] : List NsRecord) ≠ [] :=
  c3_ns_resolution.2.2 "example.com." 3600 ["ns1.example.com."]
    [{ name := "ns1.example.com.", ttl := 3600 }] (by decide)

/-! ## Claim C4 (which embedded names are validated) -/

/-- Every NS record produced from an explicit nameserver list has passed
validate_dns_name (the success of parse_ns_entries threads through a
validate_dns_name call per record). -/
theorem parse_ns_entries_valid :
    ∀ (l : List (StringOrTableValue NameserverEntry)) zone ttl recs,
      parse_ns_entries zone ttl l = .ok recs →
      ∀ r ∈ recs, validate_dns_name r.name = .ok () := by
  intro l
  induction l with
  | nil =>
    intro zone ttl recs h r hr
    simp only [parse_ns_entries] at h
    cases h
    exact absurd hr (by simp)
  | cons e rest ih =>
    intro zone ttl recs h r hr
    simp only [parse_ns_entries] at h
    split at h
    · exact absurd h (by simp)
    · split at h
      · exact absurd h (by simp)
      · split at h
        · exact absurd h (by simp)
        · rename_i x1 fqdn hph x2 u hval x3 rs hrest
          cases h
          rcases List.mem_cons.mp hr with hr | hr
          · subst hr
            simpa using hval
          · exact ih zone ttl rs hrest r hr

/-- Every MX record produced from an explicitly declared mx list has passed
validate_dns_name. -/
theorem parse_mx_entries_valid :
    ∀ (l : List (StringOrTableValue MxEntry)) zone ttl dp recs,
      parse_mx_entries zone ttl dp l = .ok recs →
      ∀ r ∈ recs, validate_dns_name r.name = .ok () := by
  intro l
  induction l with
  | nil =>
    intro zone ttl dp recs h r hr
    simp only [parse_mx_entries] at h
    cases h
    exact absurd hr (by simp)
  | cons e rest ih =>
    intro zone ttl dp recs h r hr
    simp only [parse_mx_entries] at h
    split at h
    · exact absurd h (by simp)
    · split at h
      · exact absurd h (by simp)
      · split at h
        · exact absurd h (by simp)
        · rename_i x1 fqdn hph x2 u hval x3 rs hrest
          cases h
          rcases List.mem_cons.mp hr with hr | hr
          · subst hr
            simpa using hval
          · exact ih zone ttl dp rs hrest r hr

/-- A zone declaring one host whose label contains a space. -/
def z2 : Zone :=
  { name := "example.com", serial := none, email := none, expire := none,
    nameserver := none, nrc_ttl := none, refresh := none,
    retry := none, ttl := none, mx := none, mx_prio := none, srv_prio := none,
    srv_weight := none, with_ptr := none,
    hosts := some [("in valid", .ip (.single (.v4 0x0A000001)))],
    cname := none, srv := none }

/-- Claim C4, counterexample: per-zone resolution succeeds on a host whose
derived A-record name fails validate_dns_name (a space in the label) — the
embedded A-record name is never validated, so the claimed invariant over
"every DNS name embedded in the resolved model" is false. -/
theorem c4_counterexample :
    (parse_forward z2 d0).toOption.map (fun p => p.1.hosts) =
      some [{ name := "in valid.example.com.", ip := .v4 0x0A000001, ttl := 3600 }] ∧
    validate_dns_name "in valid.example.com." = .error (.labelBadChar "in valid") := by
  decide

/-- Claim C4, amended: on success only the NS names (all call paths, given
the session default nameservers were validated, which from_raw enforces) and
the explicitly declared MX names satisfy validate_dns_name; A-record host and
alias names, CNAME names, SRV names and default-sourced MX names are only
FQDN-completed, never re-validated (the counterexample exhibits an invalid
embedded A-record name).  Default-sourced MX records also keep their names
verbatim. -/
theorem c4_validated_names :
    (∀ raw zone ttl ds recs, (∀ d ∈ ds, validate_dns_name d = .ok ()) →
      parse_ns raw zone ttl ds = .ok recs →
      ∀ r ∈ recs, validate_dns_name r.name = .ok ()) ∧
    (∀ l zone ttl dp recs, parse_mx_entries zone ttl dp l = .ok recs →
      ∀ r ∈ recs, validate_dns_name r.name = .ok ()) ∧
    (∀ ds zone ttl dp, parse_mx none zone ttl dp ds =
      .ok (ds.map fun e =>
        { name := e.name, ttl := e.ttl.getD ttl, prio := e.prio.getD dp })) := by
  refine ⟨?_, parse_mx_entries_valid, fun ds zone ttl dp => rfl⟩
  intro raw zone ttl ds recs hds h r hr
  match raw with
  | some v =>
    exact parse_ns_entries_valid v.to_vec zone ttl recs h r hr
  | none =>
    simp only [parse_ns] at h
    split at h
    · exact absurd h (by simp)
    · cases h
      rcases List.mem_map.mp hr with ⟨d, hd, hrd⟩
      cases hrd
      exact hds d hd

/-- Claim C4, witness: the NS-validity invariant applied at a concrete
default-nameserver resolution. -/
theorem c4_witness : validate_dns_name "ns1.example.com." = .ok () :=
  c4_validated_names.1 none "example.com." 3600 ["ns1.example.com."]
    [{ name := "ns1.example.com.", ttl := 3600 }] (by decide) (by decide)
    { name := "ns1.example.com.", ttl := 3600 } (by simp)

/-! ## Claim C8 (retry < refresh checked at every level) -/

/-- A reverse-zone entry whose only override is retry = 9000. -/
def revBad : ReverseEntry :=
  { serial := none, email := none, expire := none, nameserver := none,
    nrc_ttl := none, refresh := none, retry := some 9000, ttl := none }

/-- Claim C8: retry ≥ refresh is fatal and the check is applied
independently at each level — once on the raw global defaults in
SessionDefaults::from_raw, once per forward zone on the effective
post-override values in parse_forward, and once per reverse zone in
parse_reverse — so a zone-level override that reintroduces the violation
fails even when the defaults satisfied the rule (the defaults are
unconstrained in the two per-zone conjuncts). -/
theorem c8_retry_refresh_checked :
    (∀ (raw : RawDefaults) (gen : Nat), raw.retry ≥ raw.refresh →
      SessionDefaults.from_raw raw gen =
        .error (.retryGeRefresh raw.retry raw.refresh)) ∧
    (∀ (z : Zone) (defaults : SessionDefaults),
      z.retry.getD defaults.retry ≥ z.refresh.getD defaults.refresh →
      parse_forward z defaults =
        .error (.retryGeRefresh (z.retry.getD defaults.retry)
          (z.refresh.getD defaults.refresh))) ∧
    (∀ (net : IpNetwork) (entry : ReverseEntry) rest defaults pool,
      entry.retry.getD defaults.retry ≥ entry.refresh.getD defaults.refresh →
      parse_reverse (some ((net, entry) :: rest)) defaults pool =
        .error (.retryGeRefresh (entry.retry.getD defaults.retry)
          (entry.refresh.getD defaults.refresh))) := by
  refine ⟨?_, ?_, ?_⟩
  · intro raw gen h
    simp [SessionDefaults.from_raw, h]
  · intro z defaults h
    simp [parse_forward, h]
  · intro net entry rest defaults pool h
    cases net with
    | v4 n =>
      simp [parse_reverse, parse_reverse_entries, register_net,
        reverse_entry_zone, h]
    | v6 n =>
      simp [parse_reverse, parse_reverse_entries, register_net,
        reverse_entry_zone, h]

/-- Claim C8, witness: the three checks fire at concrete inputs — bad global
defaults, a forward zone overriding retry to 9000 against d0
(retry 900 < refresh 7200), and a reverse entry doing the same. -/
theorem c8_witness :
    SessionDefaults.from_raw rdBad 0 = .error (.retryGeRefresh 3600 3600) ∧
    parse_forward z1 d0 = .error (.retryGeRefresh 9000 7200) ∧
    parse_reverse (some [(.v4 net10, revBad)]) d0 [] =
      .error (.retryGeRefresh 9000 7200) :=
  ⟨c8_retry_refresh_checked.1 rdBad 0 (by decide),
   c8_retry_refresh_checked.2.1 z1 d0 (by decide),
   c8_retry_refresh_checked.2.2 (.v4 net10) revBad [] d0 [] (by decide)⟩

/-! ## Claim C5 (the shared PTR pool rejects duplicates) -/

/-- The pool-insertion loop succeeds exactly when the inserted candidates
have pairwise distinct addresses and none of them is already pooled. -/
theorem insert_ptrs_ok_iff :
    ∀ (ptrs : List PtrRecord) (pool : List (IpAddr × PtrRecord)),
      (insert_ptrs pool ptrs).isOk = true ↔
        ((ptrs.map PtrRecord.ip).Nodup ∧ ∀ p ∈ ptrs, ∀ q ∈ pool, q.1 ≠ p.ip) := by
  intro ptrs
  induction ptrs with
  | nil =>
    intro pool
    simp [insert_ptrs, Except.isOk, Except.toBool]
  | cons p rest ih =>
    intro pool
    simp only [insert_ptrs]
    split
    · rename_i hc
      obtain ⟨q, hq, he⟩ := List.any_eq_true.mp hc
      have he' : q.1 = p.ip := of_decide_eq_true he
      refine iff_of_false (by simp [Except.isOk, Except.toBool]) ?_
      rintro ⟨-, hall⟩
      exact absurd he' (hall p (List.mem_cons_self p rest) q hq)
    · rename_i hc
      have hnotin : ∀ q ∈ pool, q.1 ≠ p.ip := by
        intro q hq he
        exact hc (List.any_eq_true.mpr ⟨q, hq, decide_eq_true he⟩)
      rw [ih]
      constructor
      · rintro ⟨hnd, hall⟩
        have hip : p.ip ∉ rest.map PtrRecord.ip := by
          intro hm
          obtain ⟨r, hrm, hre⟩ := List.mem_map.mp hm
          exact hall r hrm (p.ip, p) (by simp) hre.symm
        refine ⟨List.nodup_cons.mpr ⟨hip, hnd⟩, ?_⟩
        intro x hx q hq
        rcases List.mem_cons.mp hx with hx | hx
        · subst hx
          exact hnotin q hq
        · exact hall x hx q (List.mem_append_left _ hq)
      · rintro ⟨hnd, hall⟩
        have hip := (List.nodup_cons.mp hnd).1
        refine ⟨(List.nodup_cons.mp hnd).2, ?_⟩
        intro r hrm q hq
        rcases List.mem_append.mp hq with hq | hq
        · exact hall r (List.mem_cons_of_mem _ hrm) q hq
        · have hqe : q = (p.ip, p) := by simpa using hq
          subst hqe
          intro he
          exact hip (List.mem_map.mpr ⟨r, hrm, he.symm⟩)

/-- When the loop fails, the error is a duplicate-PTR error naming one of the
candidates. -/
theorem insert_ptrs_err_shape :
    ∀ ptrs pool e, insert_ptrs pool ptrs = .error e →
      ∃ p ∈ ptrs, e = .duplicatePtr p := by
  intro ptrs
  induction ptrs with
  | nil =>
    intro pool e h
    simp [insert_ptrs] at h
  | cons p rest ih =>
    intro pool e h
    simp only [insert_ptrs] at h
    split at h
    · cases h
      exact ⟨p, by simp, rfl⟩
    · obtain ⟨r, hrm, hre⟩ := ih _ _ h
      exact ⟨r, List.mem_cons_of_mem _ hrm, hre⟩

/-- The loop keeps the pool's addresses pairwise distinct. -/
theorem insert_ptrs_keys_nodup :
    ∀ ptrs pool pool', insert_ptrs pool ptrs = .ok pool' →
      (pool.map Prod.fst).Nodup → (pool'.map Prod.fst).Nodup := by
  intro ptrs
  induction ptrs with
  | nil =>
    intro pool pool' h hnd
    cases h
    exact hnd
  | cons p rest ih =>
    intro pool pool' h hnd
    simp only [insert_ptrs] at h
    split at h
    · exact absurd h (by simp)
    · rename_i hc
      have hnotin : ∀ q ∈ pool, q.1 ≠ p.ip := by
        intro q hq he
        exact hc (List.any_eq_true.mpr ⟨q, hq, decide_eq_true he⟩)
      apply ih _ _ h
      have hmap : ((pool ++ [(p.ip, p)]).map Prod.fst) = pool.map Prod.fst ++ [p.ip] := by
        simp
      rw [hmap]
      refine hnd.append (List.nodup_singleton _) ?_
      intro x hx hx'
      have hxe : x = p.ip := by simpa using hx'
      obtain ⟨q, hq, hqx⟩ := List.mem_map.mp hx
      exact hnotin q hq (hqx.trans hxe)

/-- The forward-zone loop of parse preserves distinctness of the pooled
addresses: a successful resolution has at most one PTR target per address. -/
theorem process_zones_keys_nodup :
    ∀ zones pool defaults fwd final,
      process_zones defaults pool zones = .ok (fwd, final) →
      (pool.map Prod.fst).Nodup → (final.map Prod.fst).Nodup := by
  intro zones
  induction zones with
  | nil =>
    intro pool defaults fwd final h hnd
    cases h
    exact hnd
  | cons z rest ih =>
    intro pool defaults fwd final h hnd
    simp only [process_zones] at h
    split at h
    · exact absurd h (by simp)
    · split at h
      · exact absurd h (by simp)
      · split at h
        · exact absurd h (by simp)
        · rename_i x1 fz ptrs hpf x2 pool' hins x3 fzs finalR hrecs
          cases h
          exact ih pool' defaults fzs final hrecs
            (insert_ptrs_keys_nodup ptrs pool pool' hins hnd)

/-- Claim C5: inserting a PTR candidate for an address already pooled is
fatal — the insertion loop succeeds iff the candidates' addresses are
pairwise distinct and disjoint from the pool, any failure is a duplicate-PTR
error naming a candidate, and the zone loop of parse keeps the pool's
addresses pairwise distinct, so a successful resolution has at most one PTR
target per IP address globally. -/
theorem c5_duplicate_ptr :
    (∀ pool ptrs, (insert_ptrs pool ptrs).isOk = true ↔
      ((ptrs.map PtrRecord.ip).Nodup ∧ ∀ p ∈ ptrs, ∀ q ∈ pool, q.1 ≠ p.ip)) ∧
    (∀ pool ptrs e, insert_ptrs pool ptrs = .error e →
      ∃ p ∈ ptrs, e = .duplicatePtr p) ∧
    (∀ defaults zones pool fwd final,
      process_zones defaults pool zones = .ok (fwd, final) →
      (pool.map Prod.fst).Nodup → (final.map Prod.fst).Nodup) :=
  ⟨fun pool ptrs => insert_ptrs_ok_iff ptrs pool,
   fun pool ptrs e h => insert_ptrs_err_shape ptrs pool e h,
   fun _ zones pool fwd final h hnd =>
     process_zones_keys_nodup zones pool _ fwd final h hnd⟩

/-- Claim C5, witness: two distinct-address candidates insert fine, and the
same candidate twice is rejected. -/
theorem c5_witness :
    (insert_ptrs [] [{ name := "a.example.com.", ip := .v4 1, ttl := 300 },
      { name := "b.example.com.", ip := .v4 2, ttl := 300 }]).isOk = true :=
  (c5_duplicate_ptr.1 [] _).mpr ⟨by decide, by decide⟩

/-! ## Claim C6 (reverse networks of one family must be disjoint) -/

/-- Discriminator for the two overlap bail! sites of parse_reverse. -/
def ZErr.is_overlap : ZErr → Bool
  | .overlap4 _ _ => true
  | .overlap6 _ _ => true
  | _ => false

/-- Two declared networks are unconstrained across families and must not
overlap within a family (oriented: first argument is the earlier network,
matching the accumulator check n.overlaps(current)). -/
def no_overlap_pair : IpNetwork → IpNetwork → Bool
  | .v4 a, .v4 b => !(a.overlaps b)
  | .v6 a, .v6 b => !(a.overlaps b)
  | _, _ => true

/-- Every earlier/later pair of declared networks is family-disjoint. -/
def nets_disjoint : List IpNetwork → Bool
  | [] => true
  | n :: rest => rest.all (no_overlap_pair n) && nets_disjoint rest

/-- A network clears the accepted accumulators of its family. -/
def clear_of_acc (net4 : List Ipv4Network) (net6 : List Ipv6Network) :
    IpNetwork → Bool
  | .v4 n => net4.all fun m => !(m.overlaps n)
  | .v6 n => net6.all fun m => !(m.overlaps n)

/-- The accumulator push performed by register_net on success. -/
def reg_push (net4 : List Ipv4Network) (net6 : List Ipv6Network) :
    IpNetwork → List Ipv4Network × List Ipv6Network
  | .v4 n => (net4 ++ [n], net6)
  | .v6 n => (net4, net6 ++ [n])

theorem register_net_ok :
    ∀ net4 net6 net nets, register_net net4 net6 net = .ok nets →
      clear_of_acc net4 net6 net = true ∧ nets = reg_push net4 net6 net := by
  intro net4 net6 net nets h
  cases net with
  | v4 n =>
    simp only [register_net] at h
    split at h
    · exact absurd h (by simp)
    · rename_i hfind
      cases h
      refine ⟨?_, rfl⟩
      have hall := List.find?_eq_none.mp hfind
      simp only [clear_of_acc, List.all_eq_true, Bool.not_eq_true']
      intro m hm
      exact Bool.not_eq_true _ ▸ Bool.of_not_eq_true (hall m hm)
  | v6 n =>
    simp only [register_net] at h
    split at h
    · exact absurd h (by simp)
    · rename_i hfind
      cases h
      refine ⟨?_, rfl⟩
      have hall := List.find?_eq_none.mp hfind
      simp only [clear_of_acc, List.all_eq_true, Bool.not_eq_true']
      intro m hm
      exact Bool.not_eq_true _ ▸ Bool.of_not_eq_true (hall m hm)

theorem register_net_ok_of_clear :
    ∀ net4 net6 net, clear_of_acc net4 net6 net = true →
      register_net net4 net6 net = .ok (reg_push net4 net6 net) := by
  intro net4 net6 net h
  cases net with
  | v4 n =>
    have hfind : net4.find? (fun m => m.overlaps n) = none := by
      refine List.find?_eq_none.mpr ?_
      intro x hx
      have := List.all_eq_true.mp h x hx
      simp_all
    simp [register_net, hfind, reg_push]
  | v6 n =>
    have hfind : net6.find? (fun m => m.overlaps n) = none := by
      refine List.find?_eq_none.mpr ?_
      intro x hx
      have := List.all_eq_true.mp h x hx
      simp_all
    simp [register_net, hfind, reg_push]

theorem clear_reg_push :
    ∀ net4 net6 net m,
      clear_of_acc (reg_push net4 net6 net).1 (reg_push net4 net6 net).2 m = true →
      clear_of_acc net4 net6 m = true ∧ no_overlap_pair net m = true := by
  intro net4 net6 net m h
  cases net <;> cases m <;>
    simp_all [reg_push, clear_of_acc, no_overlap_pair, List.all_append]

theorem clear_reg_push_intro :
    ∀ net4 net6 net m, clear_of_acc net4 net6 m = true →
      no_overlap_pair net m = true →
      clear_of_acc (reg_push net4 net6 net).1 (reg_push net4 net6 net).2 m = true := by
  intro net4 net6 net m h1 h2
  cases net <;> cases m <;>
    simp_all [reg_push, clear_of_acc, no_overlap_pair, List.all_append]

/-! The error-shape chain: none of the per-entry resolution steps of
parse_reverse can produce an overlap error; only register_net can. -/

theorem parse_host_str_no_overlap :
    ∀ n z e, parse_host_str n z = .error e → e.is_overlap = false := by
  intro n z e h
  simp only [parse_host_str] at h
  repeat' split at h
  all_goals first
    | exact Except.noConfusion h
    | (cases h; rfl)

theorem checkLabel_no_overlap :
    ∀ name i l e, checkLabel name i l = .error e → e.is_overlap = false := by
  intro name i l e h
  simp only [checkLabel] at h
  repeat' split at h
  all_goals first
    | exact Except.noConfusion h
    | (cases h; rfl)

theorem checkLabels_no_overlap :
    ∀ ls name i e, checkLabels name i ls = .error e → e.is_overlap = false := by
  intro ls
  induction ls with
  | nil =>
    intro name i e h
    simp [checkLabels] at h
  | cons l rest ih =>
    intro name i e h
    simp only [checkLabels] at h
    split at h
    · rename_i heq
      cases h
      exact checkLabel_no_overlap name i l _ heq
    · exact ih name (i + 1) e h

theorem validate_dns_name_no_overlap :
    ∀ name e, validate_dns_name name = .error e → e.is_overlap = false := by
  intro name e h
  simp only [validate_dns_name] at h
  repeat' split at h
  all_goals first
    | exact Except.noConfusion h
    | (cases h; rfl)
    | exact checkLabels_no_overlap _ name 0 e h

theorem checkEmailLabels_no_overlap :
    ∀ ls domain e, checkEmailLabels domain ls = .error e → e.is_overlap = false := by
  intro ls
  induction ls with
  | nil =>
    intro domain e h
    simp [checkEmailLabels] at h
  | cons l rest ih =>
    intro domain e h
    simp only [checkEmailLabels] at h
    repeat' split at h
    all_goals first
      | exact Except.noConfusion h
      | (cases h; rfl)
      | exact ih domain e h

theorem validate_email_no_overlap :
    ∀ email e, validate_email email = .error e → e.is_overlap = false := by
  intro email e h
  simp only [validate_email] at h
  repeat' split at h
  all_goals first
    | exact Except.noConfusion h
    | (cases h; rfl)
    | (rename_i heq; cases h; exact checkEmailLabels_no_overlap _ _ _ heq)

theorem parse_email_no_overlap :
    ∀ raw e, parse_email raw = .error e → e.is_overlap = false := by
  intro raw e h
  simp only [parse_email] at h
  repeat' split at h
  all_goals first
    | exact Except.noConfusion h
    | (cases h; rfl)
    | (rename_i heq; cases h; exact validate_email_no_overlap _ _ heq)

theorem resolve_email_no_overlap :
    ∀ ze de e, resolve_email ze de = .error e → e.is_overlap = false := by
  intro ze de e h
  simp only [resolve_email] at h
  repeat' split at h
  all_goals first
    | exact Except.noConfusion h
    | (cases h; rfl)
    | exact parse_email_no_overlap _ e h

theorem parse_ns_entries_no_overlap :
    ∀ l zone ttl e, parse_ns_entries zone ttl l = .error e → e.is_overlap = false := by
  intro l
  induction l with
  | nil =>
    intro zone ttl e h
    simp [parse_ns_entries] at h
  | cons x rest ih =>
    intro zone ttl e h
    simp only [parse_ns_entries] at h
    split at h
    · rename_i heq
      cases h
      exact parse_host_str_no_overlap _ _ _ heq
    · split at h
      · rename_i heq
        cases h
        exact validate_dns_name_no_overlap _ _ heq
      · split at h
        · rename_i heq
          cases h
          exact ih zone ttl _ heq
        · exact absurd h (by simp)

theorem parse_ns_no_overlap :
    ∀ raw zone ttl ds e, parse_ns raw zone ttl ds = .error e → e.is_overlap = false := by
  intro raw zone ttl ds e h
  simp only [parse_ns] at h
  repeat' split at h
  all_goals first
    | exact Except.noConfusion h
    | (cases h; rfl)
    | exact parse_ns_entries_no_overlap _ zone ttl e h

theorem reverse_entry_zone_no_overlap :
    ∀ defaults net entry pool e,
      reverse_entry_zone defaults net entry pool = .error e → e.is_overlap = false := by
  intro defaults net entry pool e h
  simp only [reverse_entry_zone] at h
  split at h
  · cases h
    rfl
  · split at h
    · rename_i heq
      cases h
      exact resolve_email_no_overlap _ _ _ heq
    · split at h
      · rename_i heq
        cases h
        exact parse_ns_no_overlap _ _ _ _ _ heq
      · exact absurd h (by simp)

/-- On success, the declared reverse networks are pairwise family-disjoint
(in declaration order) and each clears the starting accumulators. -/
theorem parse_reverse_entries_ok_disjoint :
    ∀ entries net4 net6 pool defaults zs,
      parse_reverse_entries defaults net4 net6 pool entries = .ok zs →
      nets_disjoint (entries.map Prod.fst) = true ∧
      ∀ m ∈ entries, clear_of_acc net4 net6 m.1 = true := by
  intro entries
  induction entries with
  | nil =>
    intro net4 net6 pool defaults zs h
    exact ⟨rfl, by simp⟩
  | cons ne rest ih =>
    obtain ⟨net, entry⟩ := ne
    intro net4 net6 pool defaults zs h
    simp only [parse_reverse_entries] at h
    split at h
    · exact absurd h (by simp)
    · rename_i x1 nets hreg
      split at h
      · exact absurd h (by simp)
      · rename_i x2 z pool' hz
        split at h
        · exact absurd h (by simp)
        · rename_i x3 zs' hrec
          obtain ⟨hdisj_rest, hclear_rest⟩ :=
            ih nets.1 nets.2 pool' defaults zs' hrec
          obtain ⟨hclear_head, hnets⟩ := register_net_ok net4 net6 net nets hreg
          subst hnets
          have hpair : ∀ m ∈ rest,
              clear_of_acc net4 net6 m.1 = true ∧ no_overlap_pair net m.1 = true :=
            fun m hm => clear_reg_push net4 net6 net m.1 (hclear_rest m hm)
          constructor
          · simp only [List.map_cons, nets_disjoint, Bool.and_eq_true]
            refine ⟨?_, hdisj_rest⟩
            simp only [List.all_eq_true, List.mem_map]
            rintro x ⟨m, hm, rfl⟩
            exact (hpair m hm).2
          · intro m hm
            rcases List.mem_cons.mp hm with hm | hm
            · subst hm
              exact hclear_head
            · exact (hpair m hm).1

/-- With pairwise-disjoint declared networks (and clear accumulators), any
failure of the reverse derivation is not an overlap error. -/
theorem parse_reverse_entries_no_overlap_err :
    ∀ entries net4 net6 pool defaults e,
      nets_disjoint (entries.map Prod.fst) = true →
      (∀ m ∈ entries, clear_of_acc net4 net6 m.1 = true) →
      parse_reverse_entries defaults net4 net6 pool entries = .error e →
      e.is_overlap = false := by
  intro entries
  induction entries with
  | nil =>
    intro net4 net6 pool defaults e _ _ h
    simp [parse_reverse_entries] at h
  | cons ne rest ih =>
    obtain ⟨net, entry⟩ := ne
    intro net4 net6 pool defaults e hd hclear h
    have hclear_head : clear_of_acc net4 net6 net = true :=
      hclear (net, entry) (List.mem_cons_self _ _)
    have hd' : nets_disjoint (rest.map Prod.fst) = true ∧
        ∀ m ∈ rest, no_overlap_pair net m.1 = true := by
      simp only [List.map_cons, nets_disjoint, Bool.and_eq_true,
        List.all_eq_true, List.mem_map] at hd
      exact ⟨hd.2, fun m hm => hd.1 m.1 ⟨m, hm, rfl⟩⟩
    simp only [parse_reverse_entries] at h
    split at h
    · rename_i x1 err hreg
      rw [register_net_ok_of_clear net4 net6 net hclear_head] at hreg
      exact absurd hreg (by simp)
    · rename_i x1 nets hreg
      split at h
      · rename_i x2 err hz
        cases h
        exact reverse_entry_zone_no_overlap defaults net entry pool _ hz
      · rename_i x2 z pool' hz
        split at h
        · rename_i x3 err hrec
          cases h
          obtain ⟨-, hnets⟩ := register_net_ok net4 net6 net nets hreg
          subst hnets
          refine ih (reg_push net4 net6 net).1 (reg_push net4 net6 net).2
            pool' defaults e hd'.1 ?_ hrec
          intro m hm
          exact clear_reg_push_intro net4 net6 net m.1
            (hclear m (List.mem_cons_of_mem _ hm)) (hd'.2 m hm)
        · exact absurd h (by simp)

/-- Claim C6: whenever the reverse derivation succeeds the declared networks
are pairwise disjoint within each address family (an IPv4 network never
conflicts with an IPv6 one by construction of no_overlap_pair), so two
overlapping same-family declarations make resolution fail whatever the
processing order; and pairwise-disjoint declarations never trigger the
overlap error — any failure then has a different cause. -/
theorem c6_reverse_overlap :
    (∀ entries defaults pool,
      (parse_reverse (some entries) defaults pool).isOk = true →
      nets_disjoint (entries.map Prod.fst) = true) ∧
    (∀ entries defaults pool e,
      nets_disjoint (entries.map Prod.fst) = true →
      parse_reverse (some entries) defaults pool = .error e →
      e.is_overlap = false) := by
  constructor
  · intro entries defaults pool h
    cases hE : parse_reverse (some entries) defaults pool with
    | error e =>
      rw [hE] at h
      simp [Except.isOk, Except.toBool] at h
    | ok zs =>
      exact (parse_reverse_entries_ok_disjoint entries [] [] pool defaults zs
        (by simpa [parse_reverse] using hE)).1
  · intro entries defaults pool e hd h
    refine parse_reverse_entries_no_overlap_err entries [] [] pool defaults e hd
      ?_ (by simpa [parse_reverse] using h)
    intro m hm
    cases m.1 <;> rfl

/-- The two disjoint IPv4 declarations used by the C6 witness. -/
def entries0 : List (IpNetwork × ReverseEntry) :=
  [(.v4 ⟨0x0A000000, 8⟩, rev0), (.v4 net192, rev0)]

/-- Claim C6, witness: a successful concrete reverse derivation (10.0.0.0/8
and 192.168.1.0/24 under d0) certifies its declarations disjoint. -/
theorem c6_witness : nets_disjoint (entries0.map Prod.fst) = true :=
  c6_reverse_overlap.1 entries0 d0 [] (by decide)

end Zonefile
